import Mathlib

/-!
Shallow embedding of the sinusoid-combination model (`sinusoid.py`).

Modelling conventions:
* Python floats are modelled as real numbers (`ℝ`).
* Python lists/tuples are modelled as Lean `List`s; a successful modes
  assignment converts to a tuple, which has the same contents, so the
  tuple/list distinction is not tracked.
* A raised Python exception is modelled by the first component of a
  `Option PyErr × SinusoidModel` result: `some e` means the call raised `e`,
  and the model component is the (possibly partially mutated) object state at
  the moment the exception propagated, exactly as in CPython where attribute
  mutations performed before a `raise` survive.
* The external least-squares solver (`scipy.optimize.leastsq`) is an
  out-of-scope collaborator; `fit_to_data` is parametrised by the vector the
  solver returns (`solverOut`).  `leastsq` returns a vector of the same shape
  as its input and the intermediate residual evaluations install candidate
  vectors of that same shape, all overwritten by the final install, so this
  parametrisation is faithful for the final state.
-/

/-- Python exceptions raised by the code, by site. -/
inductive PyErr where
  /-- `ValueError` from the modes setter: `len(mode) != len(self.frequencies)`. -/
  | wrongNumberOfModes
  /-- `ValueError` from the modes setter: derived frequency not strictly positive. -/
  | zeroFrequencyMode
  /-- `ValueError` from the `_fit_parameters` setter: odd number of trailing entries. -/
  | oddFitParameters
  /-- `IndexError`: `p[0]` on an empty vector, or `self._sinusoids[i]` out of range. -/
  | indexError
  /-- `TypeError`: iterating over `None` in the modes setter. -/
  | typeError
  deriving DecidableEq, Repr

/-- Embedding of class `Sinusoid` (sinusoid.py lines 4-37): four attributes,
`angular_frequency` cached at construction time. -/
structure Sinusoid where
  frequency : ℝ
  amplitude : ℝ
  phase : ℝ
  angular_frequency : ℝ

/-- `Sinusoid.__init__`: stores the three parameters and caches
`angular_frequency = 2 * pi * frequency`. -/
noncomputable def Sinusoid.init (frequency amplitude phase : ℝ) : Sinusoid :=
  { frequency := frequency
    amplitude := amplitude
    phase := phase
    angular_frequency := 2 * Real.pi * frequency }

/-- Default element for `List.headI` on sinusoid lists (modelling
infrastructure only, not part of the source). -/
noncomputable instance : Inhabited Sinusoid := ⟨Sinusoid.init 1 0 0⟩

/-- `Sinusoid.__call__(t)`: `amplitude * np.sin(angular_frequency * t + phase)`. -/
noncomputable def Sinusoid.call (s : Sinusoid) (t : ℝ) : ℝ :=
  s.amplitude * Real.sin (s.angular_frequency * t + s.phase)

/-- Embedding of class `SinusoidModel` (sinusoid.py lines 40-208).
`sinusoids` is the `_sinusoids` attribute and `modes` the `_modes` attribute. -/
structure SinusoidModel where
  frequencies : List ℝ
  modes : List (List ℝ)
  sinusoids : List Sinusoid
  dc_offset : ℝ

/-- `SinusoidModel.value(t)` (lines 173-180): `v = 0`, add each
`sinusoid(t)` in order, then add `dc_offset`. -/
noncomputable def SinusoidModel.value (m : SinusoidModel) (t : ℝ) : ℝ :=
  (m.sinusoids.foldl (fun v s => v + s.call t) 0) + m.dc_offset

/-- `SinusoidModel.__call__(t)` (lines 85-92): textually the same loop as
`value`. -/
noncomputable def SinusoidModel.call (m : SinusoidModel) (t : ℝ) : ℝ :=
  (m.sinusoids.foldl (fun v s => v + s.call t) 0) + m.dc_offset

/-- `(np.array(self.frequencies) * np.array(mode)).sum()`: elementwise product
followed by a sum (the lengths agree whenever the code reaches this
expression). -/
def dotProd (freqs mode : List ℝ) : ℝ :=
  (List.zipWith (fun a b => a * b) freqs mode).sum

/-- Helper for the termination of the phase-normalisation loops: the natural
ceiling strictly drops when a positive real is decreased by one. -/
theorem ceil_pred_lt (x : ℝ) (hx : 0 < x) : ⌈x - 1⌉₊ < ⌈x⌉₊ := by
  have h1 : 1 ≤ ⌈x⌉₊ := Nat.ceil_pos.mpr hx
  have h2 : ⌈x - 1⌉₊ ≤ ⌈x⌉₊ - 1 := by
    rw [Nat.ceil_le]
    push_cast [h1]
    linarith [Nat.le_ceil x]
  exact lt_of_le_of_lt h2 (Nat.sub_lt h1 one_pos)

/-- First normalisation loop in `fit_to_data` (lines 204-205):
`while sinusoid.phase > 2 * np.pi: sinusoid.phase -= 2 * np.pi`. -/
noncomputable def phaseDown (p : ℝ) : ℝ :=
  if 2 * Real.pi < p then phaseDown (p - 2 * Real.pi) else p
termination_by ⌈p / (2 * Real.pi)⌉₊
decreasing_by
  have hpi : (0:ℝ) < 2 * Real.pi := by positivity
  have hrw : (p - 2 * Real.pi) / (2 * Real.pi) = p / (2 * Real.pi) - 1 := by
    field_simp
  rw [hrw]
  exact ceil_pred_lt _ (div_pos (lt_trans hpi (by assumption)) hpi)

/-- Second normalisation loop in `fit_to_data` (lines 207-208):
`while sinusoid.phase < 0: sinusoid.phase += 2 * np.pi`. -/
noncomputable def phaseUp (p : ℝ) : ℝ :=
  if p < 0 then phaseUp (p + 2 * Real.pi) else p
termination_by ⌈-p / (2 * Real.pi)⌉₊
decreasing_by
  have hpi : (0:ℝ) < 2 * Real.pi := by positivity
  have hrw : -(p + 2 * Real.pi) / (2 * Real.pi) = -p / (2 * Real.pi) - 1 := by
    field_simp
    ring
  rw [hrw]
  refine ceil_pred_lt _ (div_pos ?_ hpi)
  linarith

theorem phaseDown_eq_self (p : ℝ) (h : p ≤ 2 * Real.pi) : phaseDown p = p := by
  rw [phaseDown, if_neg (not_lt.mpr h)]

theorem phaseUp_eq_self (p : ℝ) (h : 0 ≤ p) : phaseUp p = p := by
  rw [phaseUp, if_neg (not_lt.mpr h)]

theorem phaseDown_le (p : ℝ) : phaseDown p ≤ 2 * Real.pi := by
  induction p using phaseDown.induct with
  | case1 p h ih => rwa [phaseDown, if_pos h]
  | case2 p h => rw [phaseDown, if_neg h]; exact not_lt.mp h

theorem phaseUp_nonneg (p : ℝ) : 0 ≤ phaseUp p := by
  induction p using phaseUp.induct with
  | case1 p h ih => rwa [phaseUp, if_pos h]
  | case2 p h => rw [phaseUp, if_neg h]; exact not_lt.mp h

theorem phaseUp_lt_of_neg (p : ℝ) (h : p < 0) : phaseUp p < 2 * Real.pi := by
  induction p using phaseUp.induct with
  | case1 p h1 ih =>
      rw [phaseUp, if_pos h1]
      by_cases h2 : p + 2 * Real.pi < 0
      · exact ih h2
      · rw [phaseUp_eq_self _ (not_lt.mp h2)]
        linarith
  | case2 p h1 => exact absurd h h1

/-- Input to the `frequencies` setter (lines 113-118): either an iterable of
floats or a single non-iterable scalar. -/
inductive FreqSetInput where
  | scalarInput (x : ℝ)
  | seqInput (l : List ℝ)

/-- Value stored in `self._frequencies` by the setter: the `try` branch stores
`tuple([f for f in freq])`; the `except TypeError` branch (taken for a
non-iterable scalar) stores `(freq)`, which in Python is the bare scalar
itself, not a one-element tuple. -/
inductive FreqSetStored where
  | scalarStored (x : ℝ)
  | tupleStored (l : List ℝ)

/-- `SinusoidModel.frequencies` setter (lines 113-118). -/
def frequenciesSetStored : FreqSetInput → FreqSetStored
  | .seqInput l => .tupleStored l
  | .scalarInput x => .scalarStored x

/-- `SinusoidModel.add_frequency(*frequencies)` (lines 120-134): copies the
current frequencies into a list, appends each argument, and reassigns the
`frequencies` setter (which, for a list, stores the same elements in the same
order).  The modes and sinusoids are not touched. -/
def SinusoidModel.add_frequency (m : SinusoidModel) (fs : List ℝ) : SinusoidModel :=
  { m with frequencies := m.frequencies ++ fs }

/-- The loop of the `modes` setter (lines 144-152), carrying the
already-committed `self._modes` and `self._sinusoids` accumulators: each
iteration first checks the length, then the derived frequency, and only then
appends to both lists.  On a raise, the accumulators are the object state. -/
noncomputable def modesLoop (freqs : List ℝ) :
    List (List ℝ) → List (List ℝ) → List Sinusoid →
    Option PyErr × List (List ℝ) × List Sinusoid
  | [], accM, accS => (none, accM, accS)
  | mode :: rest, accM, accS =>
    if mode.length ≠ freqs.length then (some .wrongNumberOfModes, accM, accS)
    else
      if ¬ (0 < dotProd freqs mode) then (some .zeroFrequencyMode, accM, accS)
      else modesLoop freqs rest (accM ++ [mode])
             (accS ++ [Sinusoid.init (dotProd freqs mode) 0 0])

/-- `SinusoidModel.modes` setter (lines 140-153): `self._modes = []` and
`self._sinusoids = []` are executed before any validation, then the loop runs;
the final `tuple(self._modes)` conversion keeps the same contents. -/
noncomputable def SinusoidModel.modesSet (m : SinusoidModel) (mode_list : List (List ℝ)) :
    Option PyErr × SinusoidModel :=
  let r := modesLoop m.frequencies mode_list [] []
  (r.1, { m with modes := r.2.1, sinusoids := r.2.2 })

/-- The `modes` setter including the `None` argument: `self._modes = []` and
`self._sinusoids = []` still run, after which `for mode in None` raises
`TypeError`. -/
noncomputable def SinusoidModel.modesSetOpt (m : SinusoidModel) :
    Option (List (List ℝ)) → Option PyErr × SinusoidModel
  | some l => m.modesSet l
  | none => (some .typeError, { m with modes := [], sinusoids := [] })

/-- The amplitude/phase pairs appended by the `_fit_parameters` getter loop
(lines 158-160). -/
def ampPhaseList : List Sinusoid → List ℝ
  | [] => []
  | s :: rest => s.amplitude :: s.phase :: ampPhaseList rest

/-- `SinusoidModel._fit_parameters` getter (lines 155-161):
`[dc_offset, amp_1, phase_1, amp_2, phase_2, ...]`. -/
def SinusoidModel.fitParamsGet (m : SinusoidModel) : List ℝ :=
  m.dc_offset :: ampPhaseList m.sinusoids

/-- The assignment loop of the `_fit_parameters` setter (lines 169-171):
`for i in range(len(sines) / 2)` writes `sines[2i], sines[2i+1]` into
`self._sinusoids[i]`.  Consuming the pair list two entries at a time is the
same iteration; when the sinusoid list runs out first, `self._sinusoids[i]`
raises `IndexError` with the earlier sinusoids already mutated.  The
one-entry-left case is unreachable: the setter raises on an odd pair count
before this loop runs. -/
def assignPairs : List Sinusoid → List ℝ → Option PyErr × List Sinusoid
  | sins, [] => (none, sins)
  | sins, a :: b :: rest =>
    match sins with
    | [] => (some .indexError, [])
    | s :: srest =>
      let r := assignPairs srest rest
      (r.1, { s with amplitude := a, phase := b } :: r.2)
  | sins, [_] => (none, sins)

/-- `SinusoidModel._fit_parameters` setter (lines 163-171): `self.dc_offset =
p[0]` runs first (raising `IndexError` on an empty vector), then the parity
check, then the assignment loop. -/
def SinusoidModel.fitParamsSet (m : SinusoidModel) (p : List ℝ) :
    Option PyErr × SinusoidModel :=
  match p with
  | [] => (some .indexError, m)
  | p0 :: sines =>
    let m1 := { m with dc_offset := p0 }
    if sines.length % 2 = 1 then (some .oddFitParameters, m1)
    else
      let r := assignPairs m1.sinusoids sines
      (r.1, { m1 with sinusoids := r.2 })

/-- Default initial vector in `fit_to_data` (line 186):
`0 * np.array(self._fit_parameters) + 1.`, elementwise. -/
def defaultInitial (m : SinusoidModel) : List ℝ :=
  m.fitParamsGet.map (fun x => 0 * x + 1)

/-- The per-component canonicalisation in `fit_to_data` (lines 199-208):
negate a negative amplitude and add pi to the phase, then run the two
normalisation loops on the phase. -/
noncomputable def canonicalizeSinusoid (s : Sinusoid) : Sinusoid :=
  let s1 := if s.amplitude < 0 then
      { s with amplitude := -s.amplitude, phase := s.phase + Real.pi }
    else s
  { s1 with phase := phaseUp (phaseDown s1.phase) }

/-- The canonicalisation pass of `fit_to_data`: every sinusoid is rewritten in
place; `dc_offset`, `frequencies` and `modes` are not touched. -/
noncomputable def canonicalizeModel (m : SinusoidModel) : SinusoidModel :=
  { m with sinusoids := m.sinusoids.map canonicalizeSinusoid }

/-- `SinusoidModel.fit_to_data(time, data, initial_parameters=[])`
(lines 182-208).  `if not initial_parameters` defaults an empty list to
`0 * fit_parameters + 1`; the initial vector is installed, the solver runs
(abstracted by its returned vector `solverOut`, of the same shape as the
installed vector), the result is installed, and the canonicalisation pass
runs.  `time` and `data` only feed the solver's residual function. -/
noncomputable def SinusoidModel.fit_to_data (m : SinusoidModel)
    (_time _data initial_parameters solverOut : List ℝ) :
    Option PyErr × SinusoidModel :=
  let ip := if initial_parameters = [] then defaultInitial m else initial_parameters
  let r1 := m.fitParamsSet ip
  match r1.1 with
  | some e => (some e, r1.2)
  | none =>
    let r2 := r1.2.fitParamsSet solverOut
    match r2.1 with
    | some e => (some e, r2.2)
    | none => (none, canonicalizeModel r2.2)

/-- A concrete reachable model state with one base frequency and one mode
(frequency 1, one zero-amplitude sinusoid, DC offset 5), used to instantiate
the claims. -/
noncomputable def mOne : SinusoidModel :=
  { frequencies := [1]
    modes := [[1]]
    sinusoids := [Sinusoid.init 1 0 0]
    dc_offset := 5 }

/-- A concrete reachable model state with two base frequencies and two modes. -/
noncomputable def mTwo : SinusoidModel :=
  { frequencies := [1, 2]
    modes := [[1, 0], [0, 1]]
    sinusoids := [Sinusoid.init 1 0 0, Sinusoid.init 2 0 0]
    dc_offset := 0 }

theorem list_foldl_add_call (t a : ℝ) (l : List Sinusoid) :
    l.foldl (fun v s => v + s.call t) a = a + (l.map (fun s => s.call t)).sum := by
  induction l generalizing a with
  | nil => simp
  | cons s rest ih => rw [List.foldl_cons, ih]; simp; ring

/-- Claim C1: for every model state and every time `t`, `value(t)` returns
`dc_offset` plus the sum over all components of
`amplitude * sin(2 * pi * frequency * t + phase)`; each `Sinusoid` evaluates
to `amplitude * sin(angular_frequency * t + phase)` with
`angular_frequency = 2 * pi * frequency` (the cached-attribute invariant,
established at construction and never mutated afterwards, is the
hypothesis).  Purity holds by construction of the embedding: `value` is a
Lean function of the state and `t` alone and returns no modified state. -/
theorem claim_C1 (m : SinusoidModel) (t : ℝ)
    (h : ∀ s ∈ m.sinusoids, s.angular_frequency = 2 * Real.pi * s.frequency) :
    m.value t = m.dc_offset +
      (m.sinusoids.map
        (fun s => s.amplitude * Real.sin (2 * Real.pi * s.frequency * t + s.phase))).sum := by
  unfold SinusoidModel.value
  rw [list_foldl_add_call, zero_add, add_comm]
  congr 1
  refine congrArg List.sum (List.map_congr_left ?_)
  intro s hs
  rw [Sinusoid.call, h s hs]

theorem claim_C1_w :
    mOne.value 0 = mOne.dc_offset +
      (mOne.sinusoids.map
        (fun s => s.amplitude * Real.sin (2 * Real.pi * s.frequency * 0 + s.phase))).sum :=
  claim_C1 mOne 0 (by
    intro s hs
    simp only [mOne, List.mem_singleton] at hs
    subst hs
    simp [Sinusoid.init])

/-- Claim C10: `SinusoidModel.__call__(t)` and `SinusoidModel.value(t)` are
the same loop, so the two evaluation entry points agree on every model state
and every time. -/
theorem claim_C10 (m : SinusoidModel) (t : ℝ) : m.call t = m.value t := rfl

theorem modesLoop_all_ok (freqs : List ℝ) (ms : List (List ℝ)) :
    ∀ accM accS,
    (∀ mode ∈ ms, mode.length = freqs.length ∧ 0 < dotProd freqs mode) →
    modesLoop freqs ms accM accS =
      (none, accM ++ ms,
        accS ++ ms.map (fun mode => Sinusoid.init (dotProd freqs mode) 0 0)) := by
  induction ms with
  | nil => intro accM accS _; simp [modesLoop]
  | cons mode rest ih =>
      intro accM accS h
      have hm := h mode (List.mem_cons_self _ _)
      simp only [modesLoop]
      rw [if_neg (not_ne_iff.mpr hm.1), if_neg (not_not_intro hm.2)]
      rw [ih _ _ (fun x hx => h x (List.mem_cons_of_mem _ hx))]
      simp

theorem modesLoop_err (freqs : List ℝ) (ms : List (List ℝ)) :
    ∀ accM accS,
    (∃ mode ∈ ms, mode.length ≠ freqs.length ∨ dotProd freqs mode ≤ 0) →
    (modesLoop freqs ms accM accS).1.isSome := by
  induction ms with
  | nil => intro accM accS h; simp at h
  | cons mode rest ih =>
      intro accM accS h
      by_cases hlen : mode.length = freqs.length
      · by_cases hpos : 0 < dotProd freqs mode
        · have hrest : ∃ x ∈ rest, x.length ≠ freqs.length ∨ dotProd freqs x ≤ 0 := by
            rcases h with ⟨x, hx, hbad⟩
            rcases List.mem_cons.mp hx with rfl | hx2
            · rcases hbad with hb | hb
              · exact absurd hlen hb
              · exact absurd hpos (not_lt.mpr hb)
            · exact ⟨x, hx2, hbad⟩
          simp only [modesLoop]
          rw [if_neg (not_ne_iff.mpr hlen), if_neg (not_not_intro hpos)]
          exact ih _ _ hrest
        · simp only [modesLoop]
          rw [if_neg (not_ne_iff.mpr hlen), if_pos hpos]
          rfl
      · simp only [modesLoop]
        rw [if_pos hlen]
        rfl

/-- Claim C3: assigning a list of weight-vectors to `modes` raises a
validation error when some vector has the wrong length or a non-positive
derived frequency; otherwise it succeeds, replacing `_sinusoids` entirely by
fresh zero-amplitude, zero-phase sinusoids at the derived dot-product
frequencies, storing the modes, and leaving `len(modes) == len(_sinusoids)`
(frequencies and DC offset untouched). -/
theorem claim_C3 (m : SinusoidModel) (ms : List (List ℝ)) :
    ((∃ mode ∈ ms, mode.length ≠ m.frequencies.length ∨
        dotProd m.frequencies mode ≤ 0) →
      (m.modesSet ms).1.isSome) ∧
    ((∀ mode ∈ ms, mode.length = m.frequencies.length ∧
        0 < dotProd m.frequencies mode) →
      (m.modesSet ms).1 = none ∧
      (m.modesSet ms).2.modes = ms ∧
      (m.modesSet ms).2.sinusoids =
        ms.map (fun mode => Sinusoid.init (dotProd m.frequencies mode) 0 0) ∧
      (m.modesSet ms).2.modes.length = (m.modesSet ms).2.sinusoids.length ∧
      (m.modesSet ms).2.frequencies = m.frequencies ∧
      (m.modesSet ms).2.dc_offset = m.dc_offset) := by
  constructor
  · intro h
    simp only [SinusoidModel.modesSet]
    exact modesLoop_err _ _ _ _ h
  · intro h
    simp only [SinusoidModel.modesSet]
    rw [modesLoop_all_ok _ _ _ _ h]
    simp

theorem claim_C3_w :
    (mOne.modesSet [[2]]).1 = none ∧
    (mOne.modesSet [[2]]).2.modes = [[2]] ∧
    (mOne.modesSet [[2]]).2.sinusoids =
      [[(2:ℝ)]].map (fun mode => Sinusoid.init (dotProd mOne.frequencies mode) 0 0) ∧
    (mOne.modesSet [[2]]).2.modes.length = (mOne.modesSet [[2]]).2.sinusoids.length ∧
    (mOne.modesSet [[2]]).2.frequencies = mOne.frequencies ∧
    (mOne.modesSet [[2]]).2.dc_offset = mOne.dc_offset :=
  (claim_C3 mOne [[2]]).2 (by
    intro mode hm
    simp only [List.mem_singleton] at hm
    subst hm
    refine ⟨by simp [mOne], ?_⟩
    norm_num [dotProd, mOne])

theorem modesLoop_append_ok (freqs : List ℝ) (g : List (List ℝ)) :
    ∀ (r : List (List ℝ)) accM accS,
    (∀ mode ∈ g, mode.length = freqs.length ∧ 0 < dotProd freqs mode) →
    modesLoop freqs (g ++ r) accM accS =
      modesLoop freqs r (accM ++ g)
        (accS ++ g.map (fun mode => Sinusoid.init (dotProd freqs mode) 0 0)) := by
  induction g with
  | nil => intro r accM accS _; simp
  | cons mode rest ih =>
      intro r accM accS h
      have hm := h mode (List.mem_cons_self _ _)
      simp only [List.cons_append, modesLoop]
      rw [if_neg (not_ne_iff.mpr hm.1), if_neg (not_not_intro hm.2)]
      simp only [List.append_eq]
      rw [ih _ _ _ (fun x hx => h x (List.mem_cons_of_mem _ hx))]
      simp

/-- Claim C4 counterexample: on the model with frequencies `(1,)` and prior
modes `((1,),)`, assigning `[[2], [1, 0]]` raises (the second mode has the
wrong length) but the model is NOT left as it was: the prior mode list was
discarded when the setter reset `self._modes = []`, and the validated first
mode `[2]` has already been committed, so the modes afterwards are `[[2]]`,
not `[[1]]`. -/
theorem claim_C4_cex :
    (mOne.modesSet [[2], [1, 0]]).1.isSome ∧
    (mOne.modesSet [[2], [1, 0]]).2.modes ≠ mOne.modes := by
  constructor <;>
    norm_num [SinusoidModel.modesSet, modesLoop, dotProd, mOne]

/-- Claim C4 amended: if a modes assignment fails, the model's prior modes
and `_sinusoids` are NOT preserved: the failing setter has already cleared
them and committed the validated prefix of the new mode list, so afterwards
`modes` is exactly the list of new modes preceding the first invalid one
(with the matching freshly built sinusoids), and an error is raised. -/
theorem claim_C4_amended (m : SinusoidModel) (good : List (List ℝ))
    (bad : List ℝ) (rest : List (List ℝ))
    (hg : ∀ mode ∈ good, mode.length = m.frequencies.length ∧
        0 < dotProd m.frequencies mode)
    (hb : bad.length ≠ m.frequencies.length ∨ dotProd m.frequencies bad ≤ 0) :
    (m.modesSet (good ++ bad :: rest)).1.isSome ∧
    (m.modesSet (good ++ bad :: rest)).2.modes = good ∧
    (m.modesSet (good ++ bad :: rest)).2.sinusoids =
      good.map (fun mode => Sinusoid.init (dotProd m.frequencies mode) 0 0) := by
  simp only [SinusoidModel.modesSet]
  rw [modesLoop_append_ok _ _ _ _ _ hg]
  by_cases hlen : bad.length = m.frequencies.length
  · have hpos : ¬ 0 < dotProd m.frequencies bad := by
      rcases hb with h | h
      · exact absurd hlen h
      · exact not_lt.mpr h
    simp only [modesLoop]
    rw [if_neg (not_ne_iff.mpr hlen), if_pos hpos]
    simp
  · simp only [modesLoop]
    rw [if_pos hlen]
    simp

theorem claim_C4_amended_w :
    (mOne.modesSet ([[2]] ++ [1, 0] :: [])).1.isSome ∧
    (mOne.modesSet ([[2]] ++ [1, 0] :: [])).2.modes = [[2]] ∧
    (mOne.modesSet ([[2]] ++ [1, 0] :: [])).2.sinusoids =
      [[(2:ℝ)]].map (fun mode => Sinusoid.init (dotProd mOne.frequencies mode) 0 0) :=
  claim_C4_amended mOne [[2]] [1, 0] []
    (by
      intro mode hm
      simp only [List.mem_singleton] at hm
      subst hm
      exact ⟨by simp [mOne], by norm_num [dotProd, mOne]⟩)
    (Or.inl (by norm_num [mOne]))

/-- Claim C5 counterexample: on the model with `dc_offset = 5`, assigning the
fit-parameter vector `[7, 1]` (length minus one is odd) raises the
parameter-count error, but the prior parameter state is NOT fully preserved:
`self.dc_offset = p[0]` has already run, so `dc_offset` is `7` afterwards
instead of its prior value `5`. -/
theorem claim_C5_cex :
    (mOne.fitParamsSet [7, 1]).1 = some PyErr.oddFitParameters ∧
    (mOne.fitParamsSet [7, 1]).2.dc_offset = 7 ∧
    mOne.dc_offset = 5 :=
  ⟨rfl, rfl, rfl⟩

theorem fitParamsSet_odd (m : SinusoidModel) (p : List ℝ)
    (h : (p.length - 1) % 2 = 1) :
    (m.fitParamsSet p).1 = some PyErr.oddFitParameters ∧
    (m.fitParamsSet p).2.sinusoids = m.sinusoids ∧
    (m.fitParamsSet p).2.modes = m.modes ∧
    (m.fitParamsSet p).2.frequencies = m.frequencies ∧
    (m.fitParamsSet p).2.dc_offset = p.headI := by
  cases p with
  | nil => norm_num at h
  | cons p0 sines =>
      have hlen : sines.length % 2 = 1 := by simpa using h
      simp only [SinusoidModel.fitParamsSet]
      rw [if_pos hlen]
      simp

/-- Claim C5 amended: assigning a vector whose length minus one is odd raises
the parameter-count error and leaves every component's amplitude and phase
(and the frequencies and modes) unchanged, but `dc_offset` has already been
overwritten with the vector's first entry before the rejection. -/
theorem claim_C5_amended (m : SinusoidModel) (p : List ℝ)
    (h : (p.length - 1) % 2 = 1) :
    (m.fitParamsSet p).1 = some PyErr.oddFitParameters ∧
    (m.fitParamsSet p).2.sinusoids = m.sinusoids ∧
    (m.fitParamsSet p).2.modes = m.modes ∧
    (m.fitParamsSet p).2.frequencies = m.frequencies ∧
    (m.fitParamsSet p).2.dc_offset = p.headI :=
  fitParamsSet_odd m p h

theorem claim_C5_amended_w :
    (mOne.fitParamsSet [7, 1]).1 = some PyErr.oddFitParameters ∧
    (mOne.fitParamsSet [7, 1]).2.sinusoids = mOne.sinusoids ∧
    (mOne.fitParamsSet [7, 1]).2.modes = mOne.modes ∧
    (mOne.fitParamsSet [7, 1]).2.frequencies = mOne.frequencies ∧
    (mOne.fitParamsSet [7, 1]).2.dc_offset = ([7, 1] : List ℝ).headI :=
  claim_C5_amended mOne [7, 1] (by norm_num)

theorem ampPhaseList_length (l : List Sinusoid) :
    (ampPhaseList l).length = 2 * l.length := by
  induction l with
  | nil => rfl
  | cons s rest ih => simp [ampPhaseList, ih]; omega

theorem list_map_zero_mul_add_one (l : List ℝ) :
    l.map (fun x => 0 * x + 1) = List.replicate l.length 1 := by
  induction l with
  | nil => rfl
  | cons a rest ih => simp [ih, List.replicate]

theorem defaultInitial_eq (m : SinusoidModel) :
    defaultInitial m = List.replicate (1 + 2 * m.sinusoids.length) 1 := by
  unfold defaultInitial SinusoidModel.fitParamsGet
  rw [list_map_zero_mul_add_one]
  simp only [List.length_cons, ampPhaseList_length]
  congr 1
  omega

/-- Claim C6 counterexample: on the two-mode model (correct vector length 5),
supplying the length-3 initial vector `[1, 1, 1]` does NOT make `fit_to_data`
fail with an input-validation error: the parity check passes (3 - 1 is even),
only the leading pair is installed, and the fit completes with no error
raised. -/
theorem claim_C6_cex :
    (mTwo.fit_to_data [] [] [1, 1, 1] [0, 0, 0]).1 = none ∧
    ([1, 1, 1] : List ℝ).length ≠ 1 + 2 * mTwo.modes.length := by
  refine ⟨rfl, ?_⟩
  norm_num [mTwo]

/-- Claim C6 amended: when no initial vector is supplied, `fit_to_data`
defaults to the all-ones vector of length `1 + 2 * len(modes)` (via
`0 * fit_parameters + 1`).  A supplied wrong-length vector is NOT generally
rejected: the only validation applied is the parity check, so a vector whose
length minus one is odd fails with the parameter-count error (before the
solver runs), while a shorter vector with even length-minus-one is silently
accepted, updating only the leading components (see the counterexample), and
a longer one raises an index error mid-assignment. -/
theorem claim_C6_amended (m : SinusoidModel) (t d ip so : List ℝ)
    (hms : m.modes.length = m.sinusoids.length)
    (hodd : (ip.length - 1) % 2 = 1) :
    defaultInitial m = List.replicate (1 + 2 * m.modes.length) 1 ∧
    (m.fit_to_data t d ip so).1 = some PyErr.oddFitParameters := by
  constructor
  · rw [defaultInitial_eq, hms]
  · have hip : ip ≠ [] := by
      intro hnil
      subst hnil
      norm_num at hodd
    simp only [SinusoidModel.fit_to_data, if_neg hip]
    rw [(fitParamsSet_odd m ip hodd).1]

theorem claim_C6_amended_w :
    defaultInitial mTwo = List.replicate (1 + 2 * mTwo.modes.length) 1 ∧
    (mTwo.fit_to_data [] [] [1, 1] [0, 0, 0, 0, 0]).1 = some PyErr.oddFitParameters :=
  claim_C6_amended mTwo [] [] [1, 1] [0, 0, 0, 0, 0] rfl (by norm_num)

theorem phaseUp_le_two_pi (p : ℝ) (h : p ≤ 2 * Real.pi) :
    phaseUp p ≤ 2 * Real.pi := by
  by_cases h0 : p < 0
  · exact le_of_lt (phaseUp_lt_of_neg p h0)
  · rw [phaseUp_eq_self p (not_lt.mp h0)]
    exact h

theorem canonicalizeSinusoid_amplitude (s : Sinusoid) :
    0 ≤ (canonicalizeSinusoid s).amplitude := by
  unfold canonicalizeSinusoid
  by_cases h : s.amplitude < 0
  · simp only [if_pos h]
    linarith
  · simp only [if_neg h]
    exact not_lt.mp h

theorem canonicalizeSinusoid_phase (s : Sinusoid) :
    0 ≤ (canonicalizeSinusoid s).phase ∧
    (canonicalizeSinusoid s).phase ≤ 2 * Real.pi := by
  unfold canonicalizeSinusoid
  exact ⟨phaseUp_nonneg _, phaseUp_le_two_pi _ (phaseDown_le _)⟩

/-- A sinusoid already in canonical form is left unchanged by the
canonicalisation pass. -/
theorem canonicalizeSinusoid_id (s : Sinusoid) (h1 : 0 ≤ s.amplitude)
    (h2 : 0 ≤ s.phase) (h3 : s.phase ≤ 2 * Real.pi) :
    canonicalizeSinusoid s = s := by
  unfold canonicalizeSinusoid
  rw [if_neg (not_lt.mpr h1)]
  show ({ s with phase := phaseUp (phaseDown s.phase) } : Sinusoid) = s
  rw [phaseDown_eq_self _ h3, phaseUp_eq_self _ h2]

theorem fitParamsSet_nil (m : SinusoidModel) :
    (m.fitParamsSet []).1 = some PyErr.indexError := rfl

theorem fitParamsSet_dc (m : SinusoidModel) (p : List ℝ) (hp : p ≠ []) :
    (m.fitParamsSet p).2.dc_offset = p.headI := by
  cases p with
  | nil => exact absurd rfl hp
  | cons p0 sines =>
      simp only [SinusoidModel.fitParamsSet]
      by_cases h : sines.length % 2 = 1
      · rw [if_pos h]
        rfl
      · rw [if_neg h]
        rfl

theorem fit_to_data_cases (m : SinusoidModel) (t d ip so : List ℝ) :
    (m.fit_to_data t d ip so).1.isSome ∨
    ((m.fitParamsSet (if ip = [] then defaultInitial m else ip)).1 = none ∧
      ((m.fitParamsSet (if ip = [] then defaultInitial m else ip)).2.fitParamsSet so).1 =
        none ∧
      m.fit_to_data t d ip so =
        (none, canonicalizeModel
          ((m.fitParamsSet (if ip = [] then defaultInitial m else ip)).2.fitParamsSet
            so).2)) := by
  simp only [SinusoidModel.fit_to_data]
  cases h1 : (m.fitParamsSet (if ip = [] then defaultInitial m else ip)).1 with
  | some e => left; simp [h1]
  | none =>
      cases h2 : ((m.fitParamsSet (if ip = [] then defaultInitial m else ip)).2.fitParamsSet
          so).1 with
      | some e => left; simp [h1, h2]
      | none => right; exact ⟨rfl, rfl, by simp⟩

/-- Claim C2 amended: after a `fit_to_data` call that returns without error,
every component's amplitude is non-negative and every phase lies in the
CLOSED interval `[0, 2 * pi]` (the normalisation loop uses the strict test
`phase > 2 * pi`, so a phase of exactly `2 * pi` is left in place and
`2 * pi` is attainable - see the counterexample); `dc_offset` is not altered
by the canonicalization pass: it still equals the first entry of the vector
the solver returned, exactly as installed by the parameter write.  The
canonicalization per component is: if the amplitude is negative, negate it
and add pi to the phase, then shift the phase by multiples of `2 * pi` into
`[0, 2 * pi]`. -/
theorem claim_C2_amended (m : SinusoidModel) (t d ip so : List ℝ) (s : Sinusoid)
    (hok : (m.fit_to_data t d ip so).1 = none)
    (hs : s ∈ (m.fit_to_data t d ip so).2.sinusoids) :
    (0 ≤ s.amplitude ∧ 0 ≤ s.phase ∧ s.phase ≤ 2 * Real.pi) ∧
    (m.fit_to_data t d ip so).2.dc_offset = so.headI := by
  rcases fit_to_data_cases m t d ip so with hbad | ⟨h1, h2, heq⟩
  · rw [hok] at hbad
    simp at hbad
  · rw [heq] at hs ⊢
    constructor
    · simp only [canonicalizeModel, List.mem_map] at hs
      rcases hs with ⟨s0, _, rfl⟩
      exact ⟨canonicalizeSinusoid_amplitude s0, (canonicalizeSinusoid_phase s0).1,
        (canonicalizeSinusoid_phase s0).2⟩
    · have hso : so ≠ [] := by
        intro hnil
        subst hnil
        rw [fitParamsSet_nil] at h2
        simp at h2
      simp only [canonicalizeModel]
      exact fitParamsSet_dc _ so hso

theorem claim_C2_amended_w :
    (0 ≤ (⟨1, 1, 0, 2 * Real.pi * 1⟩ : Sinusoid).amplitude ∧
      0 ≤ (⟨1, 1, 0, 2 * Real.pi * 1⟩ : Sinusoid).phase ∧
      (⟨1, 1, 0, 2 * Real.pi * 1⟩ : Sinusoid).phase ≤ 2 * Real.pi) ∧
    (mOne.fit_to_data [] [] [] [0, 1, 0]).2.dc_offset = ([0, 1, 0] : List ℝ).headI := by
  have hcan : canonicalizeSinusoid ⟨1, 1, 0, 2 * Real.pi * 1⟩ =
      ⟨1, 1, 0, 2 * Real.pi * 1⟩ :=
    canonicalizeSinusoid_id _ (show (0:ℝ) ≤ 1 by norm_num) le_rfl
      (show (0:ℝ) ≤ 2 * Real.pi by positivity)
  refine claim_C2_amended mOne [] [] [] [0, 1, 0] _ rfl ?_
  have hstep : (mOne.fit_to_data [] [] [] [0, 1, 0]).2.sinusoids =
      [canonicalizeSinusoid ⟨1, 1, 0, 2 * Real.pi * 1⟩] := rfl
  rw [hstep, hcan]
  exact List.mem_singleton.mpr rfl

/-- Claim C2 counterexample: with the one-mode model, a solver-returned
vector whose phase entry is exactly `2 * pi` makes `fit_to_data` return
without error while leaving the component's phase at `2 * pi`, which is NOT
in the half-open interval `[0, 2 * pi)` the claim asserts: the first
normalisation loop tests `phase > 2 * pi` strictly and does not fire. -/
theorem claim_C2_cex :
    (mOne.fit_to_data [] [] [] [0, 1, 2 * Real.pi]).1 = none ∧
    ¬ ((mOne.fit_to_data [] [] [] [0, 1, 2 * Real.pi]).2.sinusoids.headI.phase <
        2 * Real.pi) := by
  have hcan : canonicalizeSinusoid ⟨1, 1, 2 * Real.pi, 2 * Real.pi * 1⟩ =
      ⟨1, 1, 2 * Real.pi, 2 * Real.pi * 1⟩ :=
    canonicalizeSinusoid_id _ (show (0:ℝ) ≤ 1 by norm_num)
      (show (0:ℝ) ≤ 2 * Real.pi by positivity) le_rfl
  refine ⟨rfl, ?_⟩
  have hstep : (mOne.fit_to_data [] [] [] [0, 1, 2 * Real.pi]).2.sinusoids =
      [canonicalizeSinusoid ⟨1, 1, 2 * Real.pi, 2 * Real.pi * 1⟩] := rfl
  rw [hstep, hcan]
  simp [List.headI]

/-- Claim C7 (code bug): `add_frequency` appends to `frequencies` but never
re-validates or rebuilds the modes, contradicting the behaviour documented in
`sinusoid_api.py` (lines 41-57: existing modes gain a zero weight for the new
frequency, or are cleared with `extend_modes=False`).  On the two-frequency,
two-mode model, `add_frequency(3)` leaves the modes untouched, so the
invariant `len(mode) == len(frequencies)` is broken afterwards: the first
mode still has 2 entries while there are now 3 frequencies. -/
theorem claim_C7_bug :
    (mTwo.add_frequency [3]).frequencies = [1, 2, 3] ∧
    (mTwo.add_frequency [3]).modes = mTwo.modes ∧
    (mTwo.add_frequency [3]).sinusoids = mTwo.sinusoids ∧
    (mTwo.add_frequency [3]).modes.headI.length ≠
      (mTwo.add_frequency [3]).frequencies.length := by
  refine ⟨rfl, rfl, rfl, ?_⟩
  norm_num [SinusoidModel.add_frequency, mTwo]

/-- Claim C8 (code bug): the `frequencies` setter stores a list input as a
tuple in the same order, but for a scalar input the `except TypeError` branch
executes `self._frequencies = (freq)`, which (missing the trailing comma) is
the bare scalar, not the one-element tuple `(freq,)` the spec asserts; the
stored value is not a sequence at all. -/
theorem claim_C8_bug :
    frequenciesSetStored (FreqSetInput.seqInput [1, 2]) =
      FreqSetStored.tupleStored [1, 2] ∧
    frequenciesSetStored (FreqSetInput.scalarInput 5) = FreqSetStored.scalarStored 5 ∧
    FreqSetStored.scalarStored 5 ≠ FreqSetStored.tupleStored [5] := by
  refine ⟨rfl, rfl, ?_⟩
  simp

/-- Claim C9 (code bug): assigning `None` to `modes` does NOT succeed quietly
as `sinusoid_api.py` (line 88) documents: the setter first clears `_modes`
and `_sinusoids` and then raises `TypeError` when it iterates over `None`.
Assigning an empty sequence does succeed and clears the modes without
error. -/
theorem claim_C9_bug :
    (mOne.modesSetOpt none).1 = some PyErr.typeError ∧
    (mOne.modesSetOpt none).2.modes = [] ∧
    (mOne.modesSetOpt none).2.sinusoids = [] ∧
    (mOne.modesSetOpt (some [])).1 = none ∧
    (mOne.modesSetOpt (some [])).2.modes = [] ∧
    (mOne.modesSetOpt (some [])).2.sinusoids = [] :=
  ⟨rfl, rfl, rfl, rfl, rfl, rfl⟩
